import Mathlib

/-!
Verification of the Polymarket new-event bot (`new_market_bot.py`).

This file gives a shallow embedding of the bot's pure core: event
filtering (`filter_events` and its predicates), best-event selection
(`find_best_event`), tweet formatting (`format_tweet`), recent-event
cutoff filtering (`fetch_recent_events`), and the per-cycle state
update (`run_once`).  External effects (network, Twitter API, wall
clock, disk) are modelled as explicit parameters: the decoded API
response, the publish outcome, and the current time.

Python values are modelled as follows: strings are `List Char`
(Python `len`/slicing/comparison act on code points, as Lean `Char`
does), JSON scalars that may sit in the `volume`/`liquidity` fields
are `JsonVal`, numbers are `ℚ` (an idealisation of IEEE doubles),
instants are integer microseconds since the Unix epoch, and code that
can raise returns `Except Unit`.
-/

deriving instance DecidableEq for Except

namespace Bot

/-- A JSON scalar as it may appear in the `volume`/`liquidity` fields:
`null`, a number, or a string. -/
inductive JsonVal where
  | null
  | num (q : ℚ)
  | str (s : List Char)
deriving DecidableEq

/-- A series tag of an event; the code reads each element's `slug`. -/
structure SeriesTag where
  slug : Option (List Char)
deriving DecidableEq

/-- An event object from the Gamma `/events` response.  `none` stands
for an absent (or, where the code treats them alike, `null`) field. -/
structure Event where
  id : Option (List Char) := none
  title : Option (List Char) := none
  slug : Option (List Char) := none
  createdAt : Option (List Char) := none
  endDate : Option (List Char) := none
  volume : Option JsonVal := none
  liquidity : Option JsonVal := none
  series : List SeriesTag := []
deriving DecidableEq

/-- The bot's persisted state (`bot_state.json`). -/
structure BotState where
  tweeted_event_ids : List (List Char)
  total_tweets_sent : ℕ
  last_poll_time : Option (List Char)
deriving DecidableEq

/-- `MIN_VOLUME = 0`: minimum total volume to tweet. -/
def MIN_VOLUME : ℚ := 0

/-- Python truthiness of a `JsonVal` (`None`, `0` and `""` are falsy). -/
def truthy : JsonVal → Bool
  | .null => false
  | .num q => decide (q ≠ 0)
  | .str s => !s.isEmpty

/-- Numeric value of a digit character. -/
def digVal (c : Char) : ℕ := c.toNat - 48

/-- Value of a digit string, most significant digit first. -/
def digitsToNat (ds : List Char) : ℕ := ds.foldl (fun acc c => 10 * acc + digVal c) 0

/-- Unsigned decimal literal: `digits`, `digits.digits`, `digits.` or
`.digits` (at least one digit in total). -/
def parseUnsignedDec (s : List Char) : Option ℚ :=
  let ip := s.takeWhile Char.isDigit
  let rest := s.dropWhile Char.isDigit
  match rest with
  | [] => if ip.isEmpty then none else some (mkRat (digitsToNat ip) 1)
  | '.' :: fp =>
    if fp.all Char.isDigit && !(ip.isEmpty && fp.isEmpty) then
      some (mkRat (digitsToNat (ip ++ fp)) (10 ^ fp.length))
    else none
  | _ => none

/-- The decimal-fraction subset of Python's `float(str)` parsing:
surrounding whitespace is stripped, an optional sign is followed by an
unsigned decimal literal.  An invalid string yields `none`
(`float` raises `ValueError`). -/
def parseDecimal (s0 : List Char) : Option ℚ :=
  let s := ((s0.dropWhile Char.isWhitespace).reverse.dropWhile Char.isWhitespace).reverse
  match s with
  | '+' :: r => parseUnsignedDec r
  | '-' :: r => (parseUnsignedDec r).map Neg.neg
  | r => parseUnsignedDec r

/-- Python `float(v)` on a JSON scalar: numbers pass through, strings
are parsed (raising on invalid ones), `None` raises `TypeError`. -/
def pyFloat : JsonVal → Except Unit ℚ
  | .num q => .ok q
  | .str s =>
    match parseDecimal s with
    | some q => .ok q
    | none => .error ()
  | .null => .error ()

/-- `float(d.get(field, 0) or 0)`: an absent field defaults to `0`, a
falsy value (`None`, `0`, `""`) is replaced by `0`, anything else goes
through `float`. -/
def pyFloatGet (v : Option JsonVal) : Except Unit ℚ :=
  let w := v.getD (.num 0)
  pyFloat (if truthy w then w else .num 0)

/-- `float(event.get("volume", 0) or 0)`. -/
def volFloat (e : Event) : Except Unit ℚ := pyFloatGet e.volume

/-- `true` iff the volume of `e` converts to a float without raising. -/
def okVol (e : Event) : Bool :=
  match volFloat e with
  | .ok _ => true
  | .error _ => false

/-- The parsed volume of `e`, with `0` for the (raising) invalid case;
coincides with the value `float` returns whenever `okVol e = true`. -/
def volD (e : Event) : ℚ :=
  match volFloat e with
  | .ok q => q
  | .error _ => 0

/-- `str(event.get("id", ""))` (ids arrive as strings). -/
def pyIdStr (e : Event) : List Char := e.id.getD []

/-- Python string comparison `a < b`: lexicographic on code points. -/
def pyStrLt : List Char → List Char → Bool
  | [], [] => false
  | [], _ :: _ => true
  | _ :: _, [] => false
  | a :: as, b :: bs => if a < b then true else if b < a then false else pyStrLt as bs

/-- Python string comparison `a <= b`. -/
def pyStrLe (a b : List Char) : Bool := !pyStrLt b a

/-- Python substring test `needle in hay`. -/
def strContains (needle : List Char) : List Char → Bool
  | [] => needle.isEmpty
  | c :: rest => needle.isPrefixOf (c :: rest) || strContains needle rest

/-- Python `str.lower()` (ASCII case folding suffices for the slugs
and patterns the bot checks). -/
def pyLower (s : List Char) : List Char := s.map Char.toLower

/-- Two digit characters as a number. -/
def parse2 (a b : Char) : Option ℕ :=
  if a.isDigit && b.isDigit then some (10 * digVal a + digVal b) else none

/-- Four digit characters as a number. -/
def parse4 (a b c d : Char) : Option ℕ :=
  if a.isDigit && b.isDigit && c.isDigit && d.isDigit then
    some (1000 * digVal a + 100 * digVal b + 10 * digVal c + digVal d)
  else none

/-- Gregorian leap year. -/
def isLeapYear (y : ℕ) : Bool := (y % 4 == 0 && y % 100 != 0) || y % 400 == 0

/-- Days in a month of the proleptic Gregorian calendar. -/
def daysInMonth (y m : ℕ) : ℕ :=
  if m = 2 then (if isLeapYear y then 29 else 28)
  else if m = 4 ∨ m = 6 ∨ m = 9 ∨ m = 11 then 30
  else 31

/-- Days in the months of year `y` strictly before month `m`. -/
def daysBeforeMonth (y m : ℕ) : ℕ :=
  (List.range (m - 1)).foldl (fun acc i => acc + daysInMonth y (i + 1)) 0

/-- Proleptic Gregorian ordinal of a date, with `0001-01-01` as day 1
(Python's `datetime.toordinal`); `1970-01-01` is day `719163`. -/
def toOrdinal (y m d : ℕ) : ℕ :=
  365 * (y - 1) + (y - 1) / 4 + (y - 1) / 400 - (y - 1) / 100 + daysBeforeMonth y m + d

/-- A parsed `datetime`: wall-clock microseconds since the epoch and,
when the string carried a UTC offset, that offset in microseconds
(`none` models a naive datetime). -/
structure PyDateTime where
  micros : ℤ
  offMicros : Option ℤ
deriving DecidableEq

/-- Fractional-second digits (1 to 6 of them) as microseconds. -/
def fracMicros (ds : List Char) : ℕ := digitsToNat ds * 10 ^ (6 - ds.length)

/-- A trailing UTC offset `±HH:MM`, in microseconds. -/
def parseOffsetTail : List Char → Option ℤ
  | sign :: h1 :: h2 :: ':' :: m1 :: m2 :: [] => do
    let h ← parse2 h1 h2
    let mi ← parse2 m1 m2
    if (sign = '+' ∨ sign = '-') ∧ h ≤ 23 ∧ mi ≤ 59 then
      let v : ℤ := ((h * 3600 + mi * 60 : ℕ) : ℤ) * 1000000
      some (if sign = '-' then -v else v)
    else none
  | _ => none

/-- The time-of-day part `HH:MM[:SS[.ffffff]][±HH:MM]`: microseconds
within the day and the optional offset. -/
def parseTimeTail (s : List Char) : Option (ℤ × Option ℤ) :=
  match s with
  | h1 :: h2 :: ':' :: m1 :: m2 :: rest => do
    let h ← parse2 h1 h2
    let mi ← parse2 m1 m2
    if 23 < h ∨ 59 < mi then none else
    let base : ℤ := ((h * 3600 + mi * 60 : ℕ) : ℤ) * 1000000
    match rest with
    | [] => some (base, none)
    | ':' :: s1 :: s2 :: rest2 => do
      let sec ← parse2 s1 s2
      if 59 < sec then none else
      let base2 : ℤ := base + ((sec : ℕ) : ℤ) * 1000000
      match rest2 with
      | [] => some (base2, none)
      | '.' :: rest3 =>
        let fd := rest3.takeWhile Char.isDigit
        let rest4 := rest3.dropWhile Char.isDigit
        if fd.length = 0 ∨ 6 < fd.length then none else
        let base3 : ℤ := base2 + ((fracMicros fd : ℕ) : ℤ)
        match rest4 with
        | [] => some (base3, none)
        | l => do
          let off ← parseOffsetTail l
          some (base3, some off)
      | l => do
        let off ← parseOffsetTail l
        some (base2, some off)
    | l => do
      let off ← parseOffsetTail l
      some (base, some off)
  | _ => none

/-- The `YYYY-MM-DD[*HH:MM[:SS[.ffffff]][±HH:MM]]` subset of Python's
`datetime.fromisoformat` (the shapes the Gamma API and the bot's
`Z`-rewriting produce); `none` models `ValueError`. -/
def fromisoformat (s : List Char) : Option PyDateTime :=
  match s with
  | y1 :: y2 :: y3 :: y4 :: '-' :: m1 :: m2 :: '-' :: d1 :: d2 :: rest => do
    let y ← parse4 y1 y2 y3 y4
    let mo ← parse2 m1 m2
    let d ← parse2 d1 d2
    if y = 0 ∨ mo = 0 ∨ 12 < mo ∨ d = 0 ∨ daysInMonth y mo < d then none else
    let dayMicros : ℤ := ((toOrdinal y mo d : ℕ) - (719163 : ℤ)) * 86400000000
    match rest with
    | [] => some ⟨dayMicros, none⟩
    | sep :: t =>
      if sep = 'T' ∨ sep = ' ' then do
        let (tm, off) ← parseTimeTail t
        some ⟨dayMicros + tm, off⟩
      else none
  | _ => none

/-- `end_date[:-1] + '+00:00' if end_date.endswith('Z') else end_date`. -/
def zfix (ed : List Char) : List Char :=
  if ed.getLast? = some 'Z' then ed.dropLast ++ "+00:00".data else ed

/-- `is_expired(event)`: true iff `endDate` is present, parses, carries
an offset, and lies strictly before `now` (in microseconds since the
epoch).  An absent or empty `endDate` is not expired; a parse failure
or the `TypeError` raised when comparing a naive datetime with the
aware `datetime.now(timezone.utc)` is swallowed by the bare `except`,
so those also yield `false`.  Total: never raises. -/
def is_expired (now : ℤ) (e : Event) : Bool :=
  match e.endDate with
  | none => false
  | some ed =>
    if ed.isEmpty then false
    else
      match fromisoformat (zfix ed) with
      | none => false
      | some dt =>
        match dt.offMicros with
        | none => false
        | some off => decide (dt.micros - off < now)

/-- The `SPORTS_SERIES` slug denylist. -/
def SPORTS_SERIES : List (List Char) :=
  ["nba", "nfl", "nhl", "mlb", "mls", "wnba",
   "nba-2026", "nfl-2025", "nhl-2026", "cfb", "cfb-2025",
   "premier-league", "premier-league-2025", "bundesliga", "bundesliga-2025",
   "la-liga", "serie-a", "ligue-1", "champions-league", "europa-league",
   "ucl-2025", "uel-2025"].map String.data

/-- The sports keywords searched for inside series slugs. -/
def SPORTS_KEYWORDS : List (List Char) :=
  ["nba", "nfl", "nhl", "mlb", "soccer", "football", "basketball"].map String.data

/-- The betting-style title patterns. -/
def SPORTS_TITLE_PATTERNS : List (List Char) :=
  [" vs ", " vs. ", "o/u ", "spread:", "moneyline", "over/under"].map String.data

/-- `is_sports_event(event)`. -/
def is_sports_event (e : Event) : Bool :=
  e.series.any (fun s =>
    let slug := pyLower (s.slug.getD [])
    SPORTS_SERIES.contains slug || SPORTS_KEYWORDS.any (fun x => strContains x slug))
  || SPORTS_TITLE_PATTERNS.any (fun p => strContains p (pyLower (e.title.getD [])))

/-- `is_crypto_spam(event)`: title contains "up or down". -/
def is_crypto_spam (e : Event) : Bool :=
  strContains "up or down".data (pyLower (e.title.getD []))

/-- `filter_events(events, state)` with the volume threshold (the
global `MIN_VOLUME`) and current time passed explicitly.  Skips
already-tweeted, sports, crypto-spam, expired and low-volume events;
the `float` conversion of a kept-so-far event's volume can raise,
which aborts the whole call (`Except.error`). -/
def filter_events (minVolume : ℚ) (now : ℤ) (st : BotState) : List Event → Except Unit (List Event)
  | [] => .ok []
  | e :: es =>
    if st.tweeted_event_ids.contains (pyIdStr e) then filter_events minVolume now st es
    else if is_sports_event e then filter_events minVolume now st es
    else if is_crypto_spam e then filter_events minVolume now st es
    else if is_expired now e then filter_events minVolume now st es
    else
      match volFloat e with
      | .error u => .error u
      | .ok v =>
        if v < minVolume then filter_events minVolume now st es
        else (filter_events minVolume now st es).map (fun l => e :: l)

/-- Stable insertion of `e` into a list already sorted by descending
parsed volume: `e` goes in front of the first element whose volume is
not larger, so earlier-inserted equal-volume elements stay behind it. -/
def insertDesc (e : Event) : List Event → List Event
  | [] => [e]
  | x :: xs => if volD x ≤ volD e then e :: x :: xs else x :: insertDesc e xs

/-- `events.sort(key=lambda e: float(e.get("volume", 0) or 0), reverse=True)`:
Python's `list.sort` is a stable sort, and with `reverse=True` elements
with equal keys keep their original order.  Modelled as the stable
descending insertion sort; `sortByVolumeDesc_eq_mergeSort` below proves
it computes the same list as the standard library's stable merge sort
under the same comparison. -/
def sortByVolumeDesc : List Event → List Event
  | [] => []
  | e :: es => insertDesc e (sortByVolumeDesc es)

/-- `find_best_event(events)`: `None` on an empty list, otherwise sort
by descending parsed volume and return the first element.  CPython
computes every element's sort key before reordering, so an event whose
volume does not convert to `float` raises out of the call. -/
def find_best_event (events : List Event) : Except Unit (Option Event) :=
  if events.isEmpty then .ok none
  else if events.all okVol then .ok (sortByVolumeDesc events).head?
  else .error ()

/-- From the spec's words ("maximum volume ..., ties broken by original
sequence order"): the first event of the list attaining the maximal
parsed volume, `none` on an empty list. -/
def firstMaxByVol : List Event → Option Event
  | [] => none
  | e :: es =>
    match firstMaxByVol es with
    | none => some e
    | some m => if volD e < volD m then some m else some e

/-- `format_number(num)`: `$X.YM`, `$XK` or `$X`.  Python's `:.1f` and
`:.0f` round half to even; `fmtF1`/`fmtF0` do that on the exact
rational `n / d`, so `num / 1_000_000` is passed as the fraction
`(num.num, num.den * 1000000)`. -/
def rheFrac (n d : ℤ) : ℤ :=
  let f := n.fdiv d
  let r2 := 2 * (n - f * d)
  if r2 < d then f
  else if d < r2 then f + 1
  else if f % 2 = 0 then f else f + 1

/-- `f"{n/d:.0f}"` for `d > 0` (including Python's `-0` output). -/
def fmtF0 (n d : ℤ) : List Char :=
  let r := rheFrac n d
  if r = 0 ∧ n < 0 then "-0".data else (toString r).data

/-- `f"{n/d:.1f}"` for `d > 0`. -/
def fmtF1 (n d : ℤ) : List Char :=
  let t := rheFrac (10 * n) d
  let neg := t < 0 ∨ (t = 0 ∧ n < 0)
  let m := t.natAbs
  (if neg then "-".data else []) ++ (toString (m / 10)).data ++ ".".data ++ (toString (m % 10)).data

/-- `format_number(num)`. -/
def format_number (num : ℚ) : List Char :=
  if 1000000 ≤ num then "$".data ++ fmtF1 num.num ((num.den : ℤ) * 1000000) ++ "M".data
  else if 1000 ≤ num then "$".data ++ fmtF0 num.num ((num.den : ℤ) * 1000) ++ "K".data
  else "$".data ++ fmtF0 num.num (num.den : ℤ)

/-- `title = event.get("title") or "New Event"`. -/
def eventTitle (e : Event) : List Char :=
  match e.title with
  | some t => if t.isEmpty then "New Event".data else t
  | none => "New Event".data

/-- `f"https://polymarket.com/event/{event.get('slug') or event.get('id')}"`
(a missing id renders as Python prints `None`). -/
def eventUrl (e : Event) : List Char :=
  "https://polymarket.com/event/".data ++
    (match e.slug with
     | some s => if s.isEmpty then (match e.id with | some i => i | none => "None".data) else s
     | none => match e.id with | some i => i | none => "None".data)

/-- The original call-to-action footer. -/
def footer1 : List Char := "🔮 Join @4Castylabs waitlist now: www.4casty.com".data

/-- The alternate footer used after title truncation. -/
def footer2 : List Char := "🔮 Join 4Casty Terminal waitlist: www.4casty.com".data

/-- The tweet template: header, title, volume, liquidity, link, footer. -/
def render_tweet (title vol_str liq_str url footer : List Char) : List Char :=
  "🚨 New Polymarket Event!\n\n".data ++ title ++ "\n\n📊 Volume: ".data ++ vol_str
    ++ "\n💰 Liquidity: ".data ++ liq_str ++ "\n\nTrade 👉 ".data ++ url
    ++ "\n\n".data ++ footer

/-- The body of `format_tweet(event)` after the `float` conversions:
render the template; if the result exceeds 280 characters, either
truncate the title (keeping `len(title) - (overflow) - 3` characters,
appending `"..."`) and re-render with the alternate footer, or fall
back to the plain rendering; finally cut to 280 characters. -/
def format_tweet_pure (e : Event) (volume liquidity : ℚ) : List Char :=
  let title := eventTitle e
  let url := eventUrl e
  let vol_str := format_number volume
  let liq_str := format_number liquidity
  let tweet := render_tweet title vol_str liq_str url footer1
  if 280 < tweet.length then
    let max_title_len : ℤ := (title.length : ℤ) - ((tweet.length : ℤ) - 280) - 3
    if 20 < max_title_len then
      (render_tweet (title.take max_title_len.toNat ++ "...".data)
          vol_str liq_str url footer2).take 280
    else tweet.take 280
  else tweet.take 280

/-- `format_tweet(event)`: the `float` conversions of volume and
liquidity can raise; otherwise the pure body runs. -/
def format_tweet (e : Event) : Except Unit (List Char) :=
  match pyFloatGet e.volume with
  | .error u => .error u
  | .ok volume =>
    match pyFloatGet e.liquidity with
    | .error u => .error u
    | .ok liquidity => .ok (format_tweet_pure e volume liquidity)

/-- `event.get("createdAt", "")`. -/
def createdAtStr (e : Event) : List Char := e.createdAt.getD []

/-- The decoded outcome of the Gamma `/events` request:
a network or JSON-decoding failure, a decoded non-list, or the list of
events. -/
inductive FetchResponse where
  | netError
  | nonList
  | events (l : List Event)

/-- The truncation loop of `fetch_recent_events`: keep events while
`event.get("createdAt", "") >= cutoff_str` (a Python string
comparison) and break at the first event failing it. -/
def collectRecent (cutoff : List Char) : List Event → List Event
  | [] => []
  | e :: es =>
    if pyStrLe cutoff (createdAtStr e) then e :: collectRecent cutoff es
    else []

/-- `fetch_recent_events(lookback_minutes)` with the formatted cutoff
string (`(now - lookback).strftime("%Y-%m-%dT%H:%M:%SZ")`) and the
request outcome passed explicitly.  Any `urllib`/JSON exception is
caught and yields `[]`; a decoded non-list yields `[]`; otherwise the
list is truncated at the first event older than the cutoff. -/
def fetch_recent_events (cutoff_str : List Char) : FetchResponse → List Event
  | .netError => []
  | .nonList => []
  | .events l => collectRecent cutoff_str l

/-- Python's `lst[-n:]`. -/
def pyLastN {α : Type} (n : ℕ) (l : List α) : List α := l.drop (l.length - n)

/-- `run_once(v2_client, v1_api, state)` with the effects made
explicit: `fetched` is what `fetch_recent_events` returned, `publishOk`
is what `send_tweet_with_image` returned, `now` is the current time in
microseconds and `nowIso` is `datetime.now(timezone.utc).isoformat()`.
`Except.error` models an exception escaping the iteration (it is
caught and logged by `main`'s loop, which keeps the previous state). -/
def run_once (publishOk : Bool) (fetched : List Event) (now : ℤ) (nowIso : List Char)
    (st : BotState) : Except Unit BotState :=
  if fetched.isEmpty then .ok { st with last_poll_time := some nowIso }
  else
    match filter_events MIN_VOLUME now st fetched with
    | .error u => .error u
    | .ok quality =>
      if quality.isEmpty then .ok { st with last_poll_time := some nowIso }
      else
        match find_best_event quality with
        | .error u => .error u
        | .ok none => .ok st
        | .ok (some best) =>
          match volFloat best with
          | .error u => .error u
          | .ok _ =>
            match format_tweet best with
            | .error u => .error u
            | .ok _text =>
              let st1 :=
                if publishOk then
                  { st with
                    tweeted_event_ids := pyLastN 500 (st.tweeted_event_ids ++ [pyIdStr best]),
                    total_tweets_sent := st.total_tweets_sent + 1 }
                else st
              .ok { st1 with last_poll_time := some nowIso }

/-! ### Sorting lemmas -/

/-- The descending-volume comparison under which Python's stable sort
with `reverse=True` orders the list. -/
def volGE (a b : Event) : Bool := decide (volD b ≤ volD a)

lemma volGE_trans : ∀ a b c : Event, volGE a b → volGE b c → volGE a c := by
  intro a b c hab hbc
  simp only [volGE, decide_eq_true_eq] at *
  exact le_trans hbc hab

lemma volGE_total : ∀ a b : Event, volGE a b || volGE b a := by
  intro a b
  simp only [volGE, Bool.or_eq_true, decide_eq_true_eq]
  exact le_total (volD b) (volD a)

lemma insertDesc_middle (e : Event) (l₁ l₂ : List Event)
    (h₁ : ∀ b ∈ l₁, ¬ volD b ≤ volD e)
    (h₂ : ∀ y, l₂.head? = some y → volD y ≤ volD e) :
    insertDesc e (l₁ ++ l₂) = l₁ ++ e :: l₂ := by
  induction l₁ with
  | nil =>
    cases l₂ with
    | nil => rfl
    | cons y t =>
      simp only [List.nil_append, insertDesc, if_pos (h₂ y rfl)]
  | cons b t ih =>
    simp only [List.cons_append, insertDesc, if_neg (h₁ b (List.mem_cons_self b t))]
    exact congrArg (List.cons b) (ih fun x hx => h₁ x (List.mem_cons_of_mem b hx))

/-- The stable insertion sort used in `find_best_event` computes the
same list as the standard library's stable merge sort under the
descending-volume comparison. -/
lemma sortByVolumeDesc_eq_mergeSort (l : List Event) :
    sortByVolumeDesc l = l.mergeSort volGE := by
  induction l with
  | nil => simp [sortByVolumeDesc]
  | cons a l ih =>
    obtain ⟨l₁, l₂, h₁, h₂, h₃⟩ := List.mergeSort_cons volGE_trans volGE_total a l
    have hs := List.sorted_mergeSort volGE_trans volGE_total (a :: l)
    rw [h₁] at hs
    rw [List.pairwise_append] at hs
    simp only [sortByVolumeDesc]
    rw [ih, h₂, h₁]
    apply insertDesc_middle
    · intro b hb
      have := h₃ b hb
      simpa [volGE] using this
    · intro y hy
      cases l₂ with
      | nil => cases hy
      | cons z t =>
        cases hy
        have := (List.pairwise_cons.mp hs.2.1).1 y (List.mem_cons_self y t)
        simpa [volGE] using this

lemma head?_insertDesc (e : Event) (l : List Event) :
    (insertDesc e l).head? =
      match l.head? with
      | none => some e
      | some x => if volD x ≤ volD e then some e else some x := by
  cases l with
  | nil => rfl
  | cons x xs =>
    simp only [insertDesc, List.head?_cons]
    by_cases h : volD x ≤ volD e
    · rw [if_pos h, if_pos h]
      rfl
    · rw [if_neg h, if_neg h]
      rfl

lemma head?_sortByVolumeDesc (l : List Event) :
    (sortByVolumeDesc l).head? = firstMaxByVol l := by
  induction l with
  | nil => rfl
  | cons e es ih =>
    simp only [sortByVolumeDesc, firstMaxByVol, head?_insertDesc, ih]
    cases h : firstMaxByVol es with
    | none => rfl
    | some m =>
      show (if volD m ≤ volD e then some e else some m)
        = (if volD e < volD m then some m else some e)
      rcases le_or_lt (volD m) (volD e) with hle | hlt
      · rw [if_pos hle, if_neg (not_lt.mpr hle)]
      · rw [if_neg (not_le.mpr hlt), if_pos hlt]

/-- Shared computation rule for `find_best_event` when every volume
converts to `float`. -/
lemma find_best_event_ok (events : List Event) (h : events.all okVol = true) :
    find_best_event events = .ok (firstMaxByVol events) := by
  unfold find_best_event
  cases events with
  | nil => rfl
  | cons a es =>
    rw [if_neg (by simp), if_pos h, head?_sortByVolumeDesc]

/-! ### C1: best-event selection -/

/-- An event whose `volume` field is a non-empty, non-numeric string:
`float("abc")` raises `ValueError`. -/
def evBadVolume : Event :=
  { id := some "b1".data, title := some "Bad volume".data, volume := some (.str "abc".data) }

/-- **C1** (counterexample).  The claim says `find_best_event` treats an
invalid volume as `0`, which would make `evBadVolume` the (sole, hence
maximal-volume) returned event of `[evBadVolume]`; instead the `float`
conversion of the sort key raises, so the call errors and returns no
event at all. -/
theorem c1_counterexample :
    find_best_event [evBadVolume] = .error ()
    ∧ firstMaxByVol [evBadVolume] = some evBadVolume := by
  constructor <;> rfl

/-- **C1** (amended).  For every list of events whose volume fields all
convert to `float` (numbers; missing, `null`, `0` or empty-string
volumes count as `0`), `find_best_event` returns the first-occurring
event of maximal parsed volume, and `none` on an empty list; an event
with a non-numeric non-empty string volume instead raises
(`c1_counterexample`). -/
theorem c1_find_best_event_first_max (events : List Event)
    (h : events.all okVol = true) :
    find_best_event events = .ok (firstMaxByVol events) :=
  find_best_event_ok events h

def evVol10 : Event :=
  { id := some "v1".data, title := some "Market A".data, volume := some (.num 10) }

def evVol50 : Event :=
  { id := some "v2".data, title := some "Market B".data, volume := some (.num 50) }

def evVol30 : Event :=
  { id := some "v3".data, title := some "Market C".data, volume := some (.num 30) }

/-- Witness for `c1_find_best_event_first_max` at the spec's own
`[{volume:10},{volume:50},{volume:30}]` example. -/
theorem c1_witness :
    ([evVol10, evVol50, evVol30].all okVol = true)
    ∧ find_best_event [evVol10, evVol50, evVol30] = .ok (some evVol50) :=
  ⟨by decide, by rw [c1_find_best_event_first_max _ (by decide)]; rfl⟩

/-! ### C2 and C6: filtering -/

/-- **C2**.  Whenever `filter_events` returns a result, no event whose
id is in the state's `tweeted_event_ids` is in it: the dedup check is
the first check of the loop and skips such an event regardless of its
other fields. -/
theorem c2_filter_excludes_announced (minV : ℚ) (now : ℤ) (st : BotState)
    (events out : List Event) (e : Event)
    (hid : st.tweeted_event_ids.contains (pyIdStr e) = true)
    (h : filter_events minV now st events = .ok out) :
    e ∉ out := by
  induction events generalizing out with
  | nil =>
    rw [filter_events] at h
    cases h
    simp
  | cons a es ih =>
    rw [filter_events] at h
    by_cases h1 : st.tweeted_event_ids.contains (pyIdStr a)
    · rw [if_pos h1] at h
      exact ih out h
    · rw [if_neg h1] at h
      by_cases h2 : is_sports_event a
      · rw [if_pos h2] at h; exact ih out h
      · rw [if_neg h2] at h
        by_cases h3 : is_crypto_spam a
        · rw [if_pos h3] at h; exact ih out h
        · rw [if_neg h3] at h
          by_cases h4 : is_expired now a
          · rw [if_pos h4] at h; exact ih out h
          · rw [if_neg h4] at h
            cases hv : volFloat a with
            | error u => rw [hv] at h; cases h
            | ok v =>
              rw [hv] at h
              replace h : (if v < minV then filter_events minV now st es
                  else Except.map (fun l => a :: l) (filter_events minV now st es))
                  = Except.ok out := h
              by_cases h5 : v < minV
              · rw [if_pos h5] at h; exact ih out h
              · rw [if_neg h5] at h
                cases hrec : filter_events minV now st es with
                | error u => rw [hrec] at h; cases h
                | ok l =>
                  rw [hrec] at h
                  cases h
                  intro hmem
                  rcases List.mem_cons.mp hmem with rfl | hm
                  · exact h1 hid
                  · exact ih l hrec hm

def stW : BotState :=
  { tweeted_event_ids := ["e1".data], total_tweets_sent := 3, last_poll_time := none }

def evTweeted : Event :=
  { id := some "e1".data, title := some "Old market".data, volume := some (.num 100) }

def evFresh : Event :=
  { id := some "e2".data, title := some "Fresh market".data, volume := some (.num 5) }

/-- Witness for `c2_filter_excludes_announced`: the already-tweeted
event is dropped, the fresh one is kept. -/
theorem c2_witness :
    (stW.tweeted_event_ids.contains (pyIdStr evTweeted) = true)
    ∧ filter_events MIN_VOLUME 0 stW [evTweeted, evFresh] = .ok [evFresh]
    ∧ evTweeted ∉ [evFresh] :=
  ⟨by decide, by decide,
    c2_filter_excludes_announced MIN_VOLUME 0 stW [evTweeted, evFresh] [evFresh] evTweeted
      (by decide) (by decide)⟩

/-- The four category checks of `filter_events` that precede the
volume check. -/
def passes_categorical (now : ℤ) (st : BotState) (e : Event) : Bool :=
  !st.tweeted_event_ids.contains (pyIdStr e) && !is_sports_event e
    && !is_crypto_spam e && !is_expired now e

lemma passes_categorical_spec (now : ℤ) (st : BotState) (e : Event)
    (h : passes_categorical now st e = true) :
    st.tweeted_event_ids.contains (pyIdStr e) = false ∧ is_sports_event e = false
    ∧ is_crypto_spam e = false ∧ is_expired now e = false := by
  simp only [passes_categorical, Bool.and_eq_true, Bool.not_eq_true'] at h
  exact ⟨h.1.1.1, h.1.1.2, h.1.2, h.2⟩

/-- **C6** (amended).  Whenever `filter_events` returns a result, every
kept event's parsed volume meets the configured minimum; and with the
minimum configured to `0`, the volume check keeps every event of
non-negative parsed volume that passes the other checks.  An event
with negative parsed volume is still excluded at minimum `0`
(`c6_counterexample`). -/
theorem c6_volume_threshold (minV : ℚ) (now : ℤ) (st : BotState)
    (events out : List Event)
    (h : filter_events minV now st events = .ok out) :
    (∀ e ∈ out, ∃ v, volFloat e = .ok v ∧ minV ≤ v)
    ∧ (minV = 0 → ∀ e ∈ events, passes_categorical now st e = true →
        ∀ v, volFloat e = .ok v → 0 ≤ v → e ∈ out) := by
  induction events generalizing out with
  | nil =>
    rw [filter_events] at h
    cases h
    exact ⟨by simp, by simp⟩
  | cons a es ih =>
    rw [filter_events] at h
    by_cases h1 : st.tweeted_event_ids.contains (pyIdStr a)
    · rw [if_pos h1] at h
      refine ⟨(ih out h).1, fun hm e he hcat v hv hnn => ?_⟩
      rcases List.mem_cons.mp he with rfl | he'
      · exact absurd h1 (by simp only [(passes_categorical_spec now st e hcat).1]; decide)
      · exact (ih out h).2 hm e he' hcat v hv hnn
    · rw [if_neg h1] at h
      by_cases h2 : is_sports_event a
      · rw [if_pos h2] at h
        refine ⟨(ih out h).1, fun hm e he hcat v hv hnn => ?_⟩
        rcases List.mem_cons.mp he with rfl | he'
        · exact absurd h2 (by simp only [(passes_categorical_spec now st e hcat).2.1]; decide)
        · exact (ih out h).2 hm e he' hcat v hv hnn
      · rw [if_neg h2] at h
        by_cases h3 : is_crypto_spam a
        · rw [if_pos h3] at h
          refine ⟨(ih out h).1, fun hm e he hcat v hv hnn => ?_⟩
          rcases List.mem_cons.mp he with rfl | he'
          · exact absurd h3 (by simp only [(passes_categorical_spec now st e hcat).2.2.1]; decide)
          · exact (ih out h).2 hm e he' hcat v hv hnn
        · rw [if_neg h3] at h
          by_cases h4 : is_expired now a
          · rw [if_pos h4] at h
            refine ⟨(ih out h).1, fun hm e he hcat v hv hnn => ?_⟩
            rcases List.mem_cons.mp he with rfl | he'
            · exact absurd h4 (by simp only [(passes_categorical_spec now st e hcat).2.2.2]; decide)
            · exact (ih out h).2 hm e he' hcat v hv hnn
          · rw [if_neg h4] at h
            cases hva : volFloat a with
            | error u => rw [hva] at h; cases h
            | ok va =>
              rw [hva] at h
              replace h : (if va < minV then filter_events minV now st es
                  else Except.map (fun l => a :: l) (filter_events minV now st es))
                  = Except.ok out := h
              by_cases h5 : va < minV
              · rw [if_pos h5] at h
                refine ⟨(ih out h).1, fun hm e he hcat v hv hnn => ?_⟩
                rcases List.mem_cons.mp he with rfl | he'
                · rw [hva] at hv
                  cases hv
                  rw [hm] at h5
                  exact absurd hnn (not_le.mpr h5)
                · exact (ih out h).2 hm e he' hcat v hv hnn
              · rw [if_neg h5] at h
                cases hrec : filter_events minV now st es with
                | error u => rw [hrec] at h; cases h
                | ok l =>
                  rw [hrec] at h
                  cases h
                  constructor
                  · intro e he
                    rcases List.mem_cons.mp he with rfl | he'
                    · exact ⟨va, hva, not_lt.mp h5⟩
                    · exact (ih l hrec).1 e he'
                  · intro hm e he hcat v hv hnn
                    rcases List.mem_cons.mp he with rfl | he'
                    · exact List.mem_cons_self _ _
                    · exact List.mem_cons_of_mem a ((ih l hrec).2 hm e he' hcat v hv hnn)

/-- The empty starting state of the bot. -/
def stEmpty : BotState :=
  { tweeted_event_ids := [], total_tweets_sent := 0, last_poll_time := none }

/-- An event with a negative numeric volume that passes all checks
before the volume check. -/
def evNegVol : Event :=
  { id := some "n1".data, title := some "Negative volume market".data,
    volume := some (.num (-1)) }

/-- **C6** (counterexample).  With the configured minimum `MIN_VOLUME = 0`,
the claim says the volume check never excludes any event, yet an event
with parsed volume `-1` — excluded by none of the other checks — is
dropped by `volume < MIN_VOLUME`. -/
theorem c6_counterexample :
    filter_events MIN_VOLUME 0 stEmpty [evNegVol] = .ok []
    ∧ passes_categorical 0 stEmpty evNegVol = true
    ∧ volFloat evNegVol = .ok (-1) := by
  refine ⟨by decide, by decide, ?_⟩
  rfl

/-- Witness for `c6_volume_threshold`: a kept event's volume meets the
minimum. -/
theorem c6_witness :
    filter_events MIN_VOLUME 0 stEmpty [evFresh] = .ok [evFresh]
    ∧ ∀ e ∈ [evFresh], ∃ v, volFloat e = .ok v ∧ MIN_VOLUME ≤ v :=
  ⟨by decide,
    (c6_volume_threshold MIN_VOLUME 0 stEmpty [evFresh] [evFresh] (by decide)).1⟩

/-! ### C3 and C4: tweet formatting -/

/-- The first, full rendering inside `format_tweet`. -/
def rendered1 (e : Event) (v l : ℚ) : List Char :=
  render_tweet (eventTitle e) (format_number v) (format_number l) (eventUrl e) footer1

/-- `max_title_len = len(title) - (len(tweet) - 280) - 3`. -/
def allowedLen (e : Event) (v l : ℚ) : ℤ :=
  ((eventTitle e).length : ℤ) - (((rendered1 e v l).length : ℤ) - 280) - 3

/-- `title[:max_title_len] + "..."`. -/
def truncatedTitle (e : Event) (v l : ℚ) : List Char :=
  (eventTitle e).take (allowedLen e v l).toNat ++ "...".data

/-- The re-rendering with truncated title and alternate footer. -/
def rendered2 (e : Event) (v l : ℚ) : List Char :=
  render_tweet (truncatedTitle e v l) (format_number v) (format_number l) (eventUrl e) footer2

lemma length_render_tweet (t v l u f : List Char) :
    (render_tweet t v l u f).length
      = 63 + t.length + v.length + l.length + u.length + f.length := by
  have h1 : ("🚨 New Polymarket Event!\n\n".data).length = 25 := by decide
  have h2 : ("\n\n📊 Volume: ".data).length = 12 := by decide
  have h3 : ("\n💰 Liquidity: ".data).length = 14 := by decide
  have h4 : ("\n\nTrade 👉 ".data).length = 10 := by decide
  have h5 : ("\n\n".data).length = 2 := by decide
  simp only [render_tweet, List.length_append, h1, h2, h3, h4, h5]
  omega

lemma length_footer1 : footer1.length = 47 := by decide

lemma length_footer2 : footer2.length = 47 := by decide

/-- The branch structure of `format_tweet_pure`, in terms of the named
renderings. -/
lemma format_tweet_pure_eq (e : Event) (v l : ℚ) :
    format_tweet_pure e v l =
      if 280 < (rendered1 e v l).length then
        (if 20 < allowedLen e v l then (rendered2 e v l).take 280
         else (rendered1 e v l).take 280)
      else (rendered1 e v l).take 280 := rfl

lemma format_tweet_eq (e : Event) (v l : ℚ)
    (hv : pyFloatGet e.volume = .ok v) (hl : pyFloatGet e.liquidity = .ok l) :
    format_tweet e = .ok (format_tweet_pure e v l) := by
  unfold format_tweet
  rw [hv, hl]

/-- **C3**.  Whenever `format_tweet` returns a string, that string has
at most 280 characters: every branch ends in `tweet[:280]`. -/
theorem c3_format_tweet_le_280 (e : Event) (out : List Char)
    (h : format_tweet e = .ok out) : out.length ≤ 280 := by
  unfold format_tweet at h
  cases hv : pyFloatGet e.volume with
  | error u => rw [hv] at h; cases h
  | ok v =>
    rw [hv] at h
    cases hl : pyFloatGet e.liquidity with
    | error u => rw [hl] at h; cases h
    | ok l =>
      rw [hl] at h
      replace h : Except.ok (format_tweet_pure e v l) = Except.ok out := h
      cases h
      rw [format_tweet_pure_eq]
      split
      · split
        · simp [List.length_take]
        · simp [List.length_take]
      · simp [List.length_take]

def evSmall : Event :=
  { id := some "e1".data, title := some "T".data,
    volume := some (.num 0), liquidity := some (.num 0) }

/-- The tweet `format_tweet` produces for `evSmall`. -/
def tweetSmall : List Char :=
  ("🚨 New Polymarket Event!\n\nT\n\n📊 Volume: $0\n💰 Liquidity: $0\n\n"
    ++ "Trade 👉 https://polymarket.com/event/e1\n\n"
    ++ "🔮 Join @4Castylabs waitlist now: www.4casty.com").data

set_option maxRecDepth 8192 in
/-- Witness for `c3_format_tweet_le_280`. -/
theorem c3_witness :
    format_tweet evSmall = .ok tweetSmall ∧ tweetSmall.length ≤ 280 :=
  ⟨by decide, c3_format_tweet_le_280 evSmall tweetSmall (by decide)⟩

/-- **C4**.  When the full rendering exceeds 280 characters,
`format_tweet` computes `max_title_len = len(title) - overflow - 3`;
if that exceeds 20 it returns exactly the re-rendering with the
ellipsis-truncated title and the alternate footer (which comes out at
exactly 280 characters, the two footers having equal length), and
otherwise it hard-truncates the full rendering to 280 characters. -/
theorem c4_two_tier_truncation (e : Event) (v l : ℚ)
    (hv : pyFloatGet e.volume = .ok v) (hl : pyFloatGet e.liquidity = .ok l)
    (hlong : 280 < (rendered1 e v l).length) :
    (20 < allowedLen e v l →
        format_tweet e = .ok (rendered2 e v l) ∧ (rendered2 e v l).length = 280)
    ∧ (allowedLen e v l ≤ 20 →
        format_tweet e = .ok ((rendered1 e v l).take 280)) := by
  have hR1 : (rendered1 e v l).length
      = 63 + (eventTitle e).length + (format_number v).length
        + (format_number l).length + (eventUrl e).length + 47 := by
    rw [rendered1, length_render_tweet, length_footer1]
  have hA : allowedLen e v l = ((eventTitle e).length : ℤ)
      - (((rendered1 e v l).length : ℤ) - 280) - 3 := rfl
  have hr2len : 20 < allowedLen e v l → (rendered2 e v l).length = 280 := by
    intro h20
    have htake : ((eventTitle e).take (allowedLen e v l).toNat).length
        = min (allowedLen e v l).toNat (eventTitle e).length := List.length_take _ _
    have hd : ("...".data).length = 3 := by decide
    have hT : (truncatedTitle e v l).length
        = min (allowedLen e v l).toNat (eventTitle e).length + 3 := by
      rw [truncatedTitle, List.length_append, htake, hd]
    rw [rendered2, length_render_tweet, length_footer2, hT]
    omega
  refine ⟨fun h20 => ⟨?_, hr2len h20⟩, fun h20 => ?_⟩
  · rw [format_tweet_eq e v l hv hl, format_tweet_pure_eq,
      if_pos hlong, if_pos h20, List.take_of_length_le (le_of_eq (hr2len h20))]
  · rw [format_tweet_eq e v l hv hl, format_tweet_pure_eq,
      if_pos hlong, if_neg (not_lt.mpr h20)]

/-- An event whose 160-character title forces smart truncation. -/
def evLong : Event :=
  { id := some "77".data, title := some (List.replicate 160 'a'),
    slug := some "long-market".data,
    volume := some (.num 50000), liquidity := some (.num 12000) }

set_option maxRecDepth 8192 in
/-- Witness for `c4_two_tier_truncation`: the long-title event takes
the smart-truncation branch and comes out at exactly 280 characters. -/
theorem c4_witness :
    pyFloatGet evLong.volume = .ok 50000
    ∧ pyFloatGet evLong.liquidity = .ok 12000
    ∧ 280 < (rendered1 evLong 50000 12000).length
    ∧ 20 < allowedLen evLong 50000 12000
    ∧ format_tweet evLong = .ok (rendered2 evLong 50000 12000)
    ∧ (rendered2 evLong 50000 12000).length = 280 :=
  ⟨by decide, by decide, by decide, by decide,
    ((c4_two_tier_truncation evLong 50000 12000 (by decide) (by decide) (by decide)).1
      (by decide)).1,
    ((c4_two_tier_truncation evLong 50000 12000 (by decide) (by decide) (by decide)).1
      (by decide)).2⟩

/-! ### C5 and C9: the per-cycle state update -/

set_option maxRecDepth 8192 in
/-- **C5**.  When the publish step reports failure (rate limit, server
error or any other exception all make `send_tweet_with_image` return
`False`), the iteration records no announcement: the tweeted-id list
and the sent counter are unchanged (only `last_poll_time` may move). -/
theorem c5_publish_failure_records_nothing (fetched : List Event) (now : ℤ)
    (nowIso : List Char) (st st' : BotState)
    (h : run_once false fetched now nowIso st = .ok st') :
    st'.tweeted_event_ids = st.tweeted_event_ids
    ∧ st'.total_tweets_sent = st.total_tweets_sent := by
  unfold run_once at h
  split at h
  · cases h; exact ⟨rfl, rfl⟩
  · split at h
    · cases h
    · split at h
      · cases h; exact ⟨rfl, rfl⟩
      · split at h
        · cases h
        · cases h; exact ⟨rfl, rfl⟩
        · split at h
          · cases h
          · split at h
            · cases h
            · cases h; exact ⟨rfl, rfl⟩

/-- The sample `isoformat` timestamp used in witnesses. -/
def nowIso0 : List Char := "2026-01-01T00:10:00+00:00".data

/-- The state `run_once` produces from `stW` when publishing fails. -/
def stAfterFail : BotState :=
  { tweeted_event_ids := ["e1".data], total_tweets_sent := 3,
    last_poll_time := some nowIso0 }

set_option maxRecDepth 8192 in
/-- Witness for `c5_publish_failure_records_nothing`. -/
theorem c5_witness :
    run_once false [evFresh] 0 nowIso0 stW = .ok stAfterFail
    ∧ stAfterFail.tweeted_event_ids = stW.tweeted_event_ids
    ∧ stAfterFail.total_tweets_sent = stW.total_tweets_sent :=
  ⟨by decide,
    (c5_publish_failure_records_nothing [evFresh] 0 nowIso0 stW stAfterFail (by decide)).1,
    (c5_publish_failure_records_nothing [evFresh] 0 nowIso0 stW stAfterFail (by decide)).2⟩

set_option maxRecDepth 8192 in
/-- **C9**.  Whenever an iteration of `run_once` publishes successfully
(witnessed by the sent counter incrementing), the resulting tweeted-id
list is `(old ++ [new_id])[-500:]`: it has at most 500 entries and is
a suffix of `old ++ [new_id]`, i.e. on overflow the oldest entries are
dropped first and only the most recent 500 ids are kept. -/
theorem c9_dedup_cap_500 (fetched : List Event) (now : ℤ) (nowIso : List Char)
    (st st' : BotState)
    (h : run_once true fetched now nowIso st = .ok st')
    (hpub : st'.total_tweets_sent = st.total_tweets_sent + 1) :
    st'.tweeted_event_ids.length ≤ 500
    ∧ ∃ id, st'.tweeted_event_ids = pyLastN 500 (st.tweeted_event_ids ++ [id])
        ∧ st'.tweeted_event_ids.IsSuffix (st.tweeted_event_ids ++ [id]) := by
  unfold run_once at h
  split at h
  · cases h; simp at hpub
  · split at h
    · cases h
    · split at h
      · cases h; simp at hpub
      · split at h
        · cases h
        · cases h; omega
        · split at h
          · cases h
          · split at h
            · cases h
            · cases h
              refine ⟨?_, _, rfl, ?_⟩
              · show (pyLastN 500 (st.tweeted_event_ids ++ _)).length ≤ 500
                simp only [pyLastN, List.length_drop]
                omega
              · exact List.drop_suffix _ _

/-- The state `run_once` produces from `stW` when publishing succeeds. -/
def stAfterPub : BotState :=
  { tweeted_event_ids := ["e1".data, "e2".data], total_tweets_sent := 4,
    last_poll_time := some nowIso0 }

set_option maxRecDepth 8192 in
/-- Witness for `c9_dedup_cap_500`. -/
theorem c9_witness :
    run_once true [evFresh] 0 nowIso0 stW = .ok stAfterPub
    ∧ stAfterPub.total_tweets_sent = stW.total_tweets_sent + 1
    ∧ stAfterPub.tweeted_event_ids.length ≤ 500 :=
  ⟨by decide, by decide,
    (c9_dedup_cap_500 [evFresh] 0 nowIso0 stW stAfterPub (by decide) (by decide)).1⟩

/-! ### C7 and C10: recent-event fetching -/

/-- **C7**.  `fetch_recent_events` returns `[]` on any network or
parsing failure (and on a decoded non-list) without raising, and on a
decoded list returns exactly the prefix up to (excluding) the first
event whose `createdAt`, compared as a string against the formatted
cutoff, is older than the cutoff: the kept events form a prefix, all
of them meet the cutoff, and the first dropped event (if any) fails
it. -/
theorem c7_fetch_prefix_and_errors (cutoff : List Char) (l : List Event) :
    fetch_recent_events cutoff .netError = []
    ∧ fetch_recent_events cutoff .nonList = []
    ∧ ∃ rest, l = fetch_recent_events cutoff (.events l) ++ rest
        ∧ (fetch_recent_events cutoff (.events l)).all
            (fun e => pyStrLe cutoff (createdAtStr e)) = true
        ∧ rest.head?.all (fun r => !pyStrLe cutoff (createdAtStr r)) = true := by
  refine ⟨rfl, rfl, ?_⟩
  simp only [fetch_recent_events]
  induction l with
  | nil => exact ⟨[], rfl, rfl, rfl⟩
  | cons e es ih =>
    by_cases hc : pyStrLe cutoff (createdAtStr e) = true
    · obtain ⟨rest, h1, h2, h3⟩ := ih
      refine ⟨rest, ?_, ?_, h3⟩
      · simp only [collectRecent, if_pos hc, List.cons_append]
        exact congrArg (List.cons e) h1
      · simp only [collectRecent, hc, if_true, List.all_cons, Bool.true_and]
        exact h2
    · have hcf : pyStrLe cutoff (createdAtStr e) = false := by
        revert hc
        cases pyStrLe cutoff (createdAtStr e) <;> simp
      refine ⟨e :: es, ?_, ?_, ?_⟩
      · simp [collectRecent, hcf]
      · simp [collectRecent, hcf]
      · simp [hcf]

/-- **C10**.  The cutoff in `fetch_recent_events` is a lexicographic
string comparison of the raw `createdAt` against the formatted cutoff
timestamp, so an event with a missing or empty `createdAt` compares as
older than any non-empty cutoff and terminates the scan there: every
subsequent event is dropped regardless of its own `createdAt`. -/
theorem c10_empty_created_at_cuts_tail (cutoff : List Char) (pre post : List Event)
    (e : Event) (hc : cutoff ≠ [])
    (hpre : pre.all (fun x => pyStrLe cutoff (createdAtStr x)) = true)
    (he : createdAtStr e = []) :
    fetch_recent_events cutoff (.events (pre ++ e :: post)) = pre := by
  have hlt : pyStrLe cutoff [] = false := by
    cases cutoff with
    | nil => exact absurd rfl hc
    | cons c cs => rfl
  show collectRecent cutoff (pre ++ e :: post) = pre
  induction pre with
  | nil =>
    simp only [List.nil_append, collectRecent, he, hlt]
    rfl
  | cons a pres ih =>
    simp only [List.all_cons, Bool.and_eq_true] at hpre
    simp only [List.cons_append, collectRecent, hpre.1, if_pos]
    exact congrArg (List.cons a) (ih hpre.2)

def evNew : Event :=
  { id := some "r1".data, title := some "Recent market".data,
    createdAt := some "2026-01-01T00:05:00Z".data, volume := some (.num 7) }

def evNoDate : Event :=
  { id := some "r2".data, title := some "No createdAt".data, volume := some (.num 9) }

def evNew2 : Event :=
  { id := some "r3".data, title := some "Also recent".data,
    createdAt := some "2026-01-01T00:04:00Z".data, volume := some (.num 8) }

/-- Witness for `c10_empty_created_at_cuts_tail`: the event after the
date-less one is dropped even though its own `createdAt` meets the
cutoff. -/
theorem c10_witness :
    ("2026-01-01T00:00:00Z".data ≠ ([] : List Char))
    ∧ [evNew].all (fun x => pyStrLe "2026-01-01T00:00:00Z".data (createdAtStr x)) = true
    ∧ createdAtStr evNoDate = []
    ∧ pyStrLe "2026-01-01T00:00:00Z".data (createdAtStr evNew2) = true
    ∧ fetch_recent_events "2026-01-01T00:00:00Z".data
        (.events [evNew, evNoDate, evNew2]) = [evNew] :=
  ⟨by decide, by decide, rfl, by decide,
    c10_empty_created_at_cuts_tail "2026-01-01T00:00:00Z".data [evNew] [evNew2] evNoDate
      (by decide) (by decide) rfl⟩

/-! ### C8: expiry checking -/

/-- **C8** (amended).  `is_expired` is total (every raised exception is
swallowed) and returns `true` exactly when `endDate` is present,
parses to an offset-aware datetime, and lies strictly before the
current time.  An absent or unparsable `endDate` yields `false`; so
does a parseable but offset-naive `endDate`, because comparing it with
`datetime.now(timezone.utc)` raises `TypeError` inside the `try`
(`c8_counterexample`). -/
theorem c8_is_expired_iff (now : ℤ) (e : Event) :
    is_expired now e = true ↔
      ∃ ed dt off, e.endDate = some ed ∧ fromisoformat (zfix ed) = some dt
        ∧ dt.offMicros = some off ∧ dt.micros - off < now := by
  constructor
  · intro h
    unfold is_expired at h
    cases hed : e.endDate with
    | none => rw [hed] at h; cases h
    | some ed =>
      rw [hed] at h
      replace h : (if ed.isEmpty = true then false
          else match fromisoformat (zfix ed) with
            | none => false
            | some dt =>
              match dt.offMicros with
              | none => false
              | some off => decide (dt.micros - off < now)) = true := h
      by_cases hemp : ed.isEmpty = true
      · rw [if_pos hemp] at h; cases h
      · rw [if_neg hemp] at h
        cases hdt : fromisoformat (zfix ed) with
        | none => rw [hdt] at h; cases h
        | some dt =>
          rw [hdt] at h
          replace h : (match dt.offMicros with
              | none => false
              | some off => decide (dt.micros - off < now)) = true := h
          cases hoff : dt.offMicros with
          | none => rw [hoff] at h; cases h
          | some off =>
            rw [hoff] at h
            replace h : decide (dt.micros - off < now) = true := h
            exact ⟨ed, dt, off, rfl, hdt, hoff, of_decide_eq_true h⟩
  · rintro ⟨ed, dt, off, hed, hdt, hoff, hlt⟩
    unfold is_expired
    rw [hed]
    have hemp : ¬ ed.isEmpty = true := by
      intro hemp
      rw [List.isEmpty_iff.mp hemp] at hdt
      cases hdt
    show (if ed.isEmpty = true then false
        else match fromisoformat (zfix ed) with
          | none => false
          | some dt =>
            match dt.offMicros with
            | none => false
            | some off => decide (dt.micros - off < now)) = true
    rw [if_neg hemp, hdt]
    show (match dt.offMicros with
        | none => false
        | some off => decide (dt.micros - off < now)) = true
    rw [hoff]
    exact decide_eq_true hlt

def evNaiveEnd : Event :=
  { id := some "x9".data, title := some "Naive end date".data,
    endDate := some "1999-01-01T00:00:00".data }

/-- The current time of the C8 counterexample: 2026-01-01T00:00:00Z in
microseconds since the epoch. -/
def now2026 : ℤ := 1767225600000000

/-- **C8** (counterexample).  `"1999-01-01T00:00:00"` is present,
parseable (`fromisoformat` succeeds) and lies strictly before the
current time, yet `is_expired` returns `false`: the parsed datetime is
offset-naive, so the comparison raises `TypeError` and the bare
`except` turns that into "not expired". -/
theorem c8_counterexample :
    fromisoformat (zfix "1999-01-01T00:00:00".data)
      = some { micros := 915148800000000, offMicros := none }
    ∧ (915148800000000 : ℤ) < now2026
    ∧ evNaiveEnd.endDate = some "1999-01-01T00:00:00".data
    ∧ is_expired now2026 evNaiveEnd = false :=
  ⟨by decide, by decide, rfl, by decide⟩

end Bot